import Mathlib

/-!
Verification development for a pyscf repository slice: the leveled logging
facility (src/pyscf/lib/logger.py), the periodic unrestricted Kohn-Sham
solver (src/pyscf/pbc/dft/kuks.py), and the XC-functional parsing contract
exercised by src/dft/test/test_libxc.py.

Machine reals are modelled as exact rationals; complex matrix entries as
pairs of rationals.  Collaborators that live outside the repository slice
(numerical integration, Coulomb/exchange builders, grid generation) are
supplied as oracle functions in an environment record, and `get_veff` is
embedded as a pure function of that environment, mirroring the source line
by line.
-/

/-! ## Complex rational scalars (entries of density matrices and operators) -/

/-- A complex number with exact rational parts; models the complex machine
floats appearing in density matrices and potential operators. -/
structure Cplx where
  re : ℚ
  im : ℚ
deriving DecidableEq

instance : Add Cplx := ⟨fun a b => ⟨a.re + b.re, a.im + b.im⟩⟩

instance : Sub Cplx := ⟨fun a b => ⟨a.re - b.re, a.im - b.im⟩⟩

instance : Mul Cplx := ⟨fun a b => ⟨a.re * b.re - a.im * b.im, a.re * b.im + a.im * b.re⟩⟩

/-- Scaling a complex entry by a real (rational) factor, as in `vk * hyb`. -/
def qsmul (a : ℚ) (z : Cplx) : Cplx := ⟨a * z.re, a * z.im⟩

/-- Sum of a list of complex entries. -/
def sumC (l : List Cplx) : Cplx := l.foldr (· + ·) ⟨0, 0⟩

/-- `np.einsum('Kij,Kji', A, B)`: the k-point-summed trace contraction
`Σ_K Σ_i Σ_j A[K,i,j] * B[K,j,i]` over `nk` k-points and `nao` basis
functions. -/
def tr3 (nk nao : Nat) (A B : Nat → Nat → Nat → Cplx) : Cplx :=
  sumC ((List.range nk).map (fun K =>
    sumC ((List.range nao).map (fun i =>
      sumC ((List.range nao).map (fun j => A K i j * B K j i))))))

/-! ## Logging facility (src/pyscf/lib/logger.py)

The verbosity constants follow the level table in logger.py's own
docstring (QUIET 0 .. DEBUG4 9).  `pyscf.lib.parameters` is not part of
the repository slice; the numeric values below are the ones that table and
the spec state. -/

def QUIET : ℤ := 0

def ERROR : ℤ := 1

def WARN : ℤ := 2

def NOTE : ℤ := 3

def INFO : ℤ := 4

def DEBUG : ℤ := 5

def DEBUG1 : ℤ := 6

def DEBUG2 : ℤ := 7

def DEBUG3 : ℤ := 8

def DEBUG4 : ℤ := 9

/-- Modelled from the spec: `TIMER_LEVEL` comes from `pyscf.lib.parameters`
(not in the repository slice); per the spec (and logger.py's docstring) it
defaults to DEBUG = 5. -/
def TIMER_LEVEL : ℤ := 5

/-- `flush(rec, msg, *args)` writes the formatted message and a newline to
the record's sink and flushes it.  The formatted text is taken as a plain
string (format-string substitution is orthogonal to the claims); the
result is the list of write calls issued to the sink. -/
def flush (msg : String) : List String := [msg, "\n"]

/-- `error(rec, msg, *args)`: flushes `'\nERROR: '+msg+'\n'` to the sink
when `rec.verbose >= ERROR`, and always writes `'ERROR: '+msg+'\n'` to the
process standard error stream.  Returns (sink writes, stderr writes). -/
def error (verbose : ℤ) (msg : String) : List String × List String :=
  ( if verbose ≥ ERROR then flush ("\nERROR: " ++ msg ++ "\n") else []
  , ["ERROR: " ++ msg ++ "\n"] )

/-- The two shapes of timing line `timer` can emit: the CPU-only form
`'    CPU time for %s %9.2f sec'` and the CPU+wall form
`'    CPU time for %s %9.2f sec, wall time %9.2f sec'`. -/
inductive TimerLine where
  | cpuOnly (label : String) (cpuElapsed : ℚ)
  | cpuWall (label : String) (cpuElapsed wallElapsed : ℚ)
deriving DecidableEq

/-- The mutable state of a Logger that `timer` reads and writes:
verbosity, `_t0` (last CPU timestamp) and `_w0` (last wall timestamp). -/
structure LogRec where
  verbose : ℤ
  t0 : ℚ
  w0 : ℚ
deriving DecidableEq

/-- Python truthiness of the `wall0` argument: `if wall0:` is false for
both `None` and `0`. -/
def pyTruthy (x : Option ℚ) : Bool :=
  match x with
  | none => false
  | some q => q != 0

/-- `timer(rec, msg, cpu0=None, wall0=None)`.  `clockNow`/`timeNow` stand
for the values of `time.clock()`/`time.time()` at the call.  Returns the
updated record, the Python return value (a single CPU timestamp or a
CPU/wall pair), and the emitted timing lines. -/
def timer (lg : LogRec) (msg : String) (cpu0 : Option ℚ) (wall0 : Option ℚ)
    (clockNow timeNow : ℚ) : LogRec × (ℚ ⊕ ℚ × ℚ) × List TimerLine :=
  let c0 := cpu0.getD lg.t0
  if pyTruthy wall0 then
    ({ lg with t0 := clockNow, w0 := timeNow },
     Sum.inr (clockNow, timeNow),
     if lg.verbose ≥ TIMER_LEVEL then
       [TimerLine.cpuWall msg (clockNow - c0) (timeNow - wall0.getD 0)]
     else [])
  else
    ({ lg with t0 := clockNow },
     Sum.inl clockNow,
     if lg.verbose ≥ TIMER_LEVEL then
       [TimerLine.cpuOnly msg (clockNow - c0)]
     else [])

/-! ## XC functional specification parsing

Modelled from the spec: `parse_xc` lives in pyscf/dft/libxc.py, which is
not part of the repository slice (only its test is).  The grammar follows
spec sections 3, 4.2 and 6: case-insensitive tokens, an optional decimal
coefficient joined with `*`, terms combined with `+`, and a single `,`
separating the exchange side from the correlation side.  `HF` adds its
coefficient to the hybrid fraction; composite aliases expand; unknown
tokens give an InvalidInput error naming the token. -/

/-- Upper-casing of one character (the grammar is case-insensitive). -/
def upChar (c : Char) : Char :=
  if ('a' ≤ c ∧ c ≤ 'z') then Char.ofNat (c.toNat - 32) else c

/-- Split a character list at every occurrence of `sep`. -/
def splitOnCh (sep : Char) (l : List Char) : List (List Char) :=
  match l with
  | [] => [[]]
  | c :: rest =>
    let r := splitOnCh sep rest
    if c = sep then [] :: r
    else
      match r with
      | [] => [[c]]
      | h :: t => (c :: h) :: t

/-- Value of a digit string; `none` on any non-digit character. -/
def digitsVal (l : List Char) : Option Nat :=
  l.foldl (fun acc c =>
    match acc with
    | none => none
    | some v => if c.isDigit then some (v * 10 + (c.toNat - 48)) else none) (some 0)

/-- Parse a decimal coefficient such as `.5`, `0.08` or `2`. -/
def parseDec (l : List Char) : Option ℚ :=
  match splitOnCh '.' l with
  | [ip] => if ip.isEmpty then none else (digitsVal ip).map (fun v => (v : ℚ))
  | [ip, fp] =>
    if ip.isEmpty && fp.isEmpty then none
    else
      match digitsVal ip, digitsVal fp with
      | some a, some b => some ((a : ℚ) + (b : ℚ) / ((10 : ℚ) ^ fp.length))
      | _, _ => none
  | _ => none

/-- Character list of a string literal. -/
def chars (s : String) : List Char := s.data

/-- Accumulator for parsing: hybrid coefficient so far and the ordered
functional-id/weight list so far. -/
structure ParsedXC where
  hyb : ℚ
  facs : List (Nat × ℚ)

/-- Add weight `w` for functional id `fid`, merging with an existing entry
for the same id (weights for one id combine by addition) and otherwise
appending at the end, so first-occurrence order is preserved. -/
def addFac (facs : List (Nat × ℚ)) (fid : Nat) (w : ℚ) : List (Nat × ℚ) :=
  match facs with
  | [] => [(fid, w)]
  | (i, v) :: rest => if i = fid then (i, v + w) :: rest else (i, v) :: addFac rest fid w

/-- Modelled from the spec: the expansion table of the composite hybrid
alias `B3LYP`.  Per spec section 3, B3LYP's intrinsic hybrid fraction 0.2
is added to the hybrid coefficient without scaling by the term's numeric
coefficient (the 0.5-weighted B3LYP term contributes 0.2, giving 0.7 for
the worked example), while the listed primitive weights scale with the
coefficient so that `.5*B3LYP` yields Slater(1) 0.08, B88(106) 0.72,
LYP(131) 0.81 and VWN(7) 0.19 — the authoritative worked example of spec
section 4.2. -/
def b3lypTable : List (Nat × ℚ) :=
  [(1, 16 / 100), (106, 144 / 100), (131, 162 / 100), (7, 38 / 100)]

/-- Fold a scaled expansion table into the accumulated weight list. -/
def applyTerms (facs : List (Nat × ℚ)) (terms : List (Nat × ℚ)) (fac : ℚ) :
    List (Nat × ℚ) :=
  terms.foldl (fun acc t => addFac acc t.1 (fac * t.2)) facs

/-- Process one `coef*NAME` (or bare `NAME`) token. -/
def applyToken (acc : ParsedXC) (tok : List Char) : Except String ParsedXC :=
  let p :=
    match splitOnCh '*' tok with
    | [a, b] => (parseDec a, b)
    | _ => (some 1, tok)
  match p.1 with
  | none => Except.error (String.mk tok)
  | some f =>
    if p.2 = chars ("HF") then Except.ok { acc with hyb := acc.hyb + f }
    else if p.2 = chars ("B3LYP") then
      Except.ok { hyb := acc.hyb + 2 / 10, facs := applyTerms acc.facs b3lypTable f }
    else if p.2 = chars ("LDA") ∨ p.2 = chars ("SLATER") then
      Except.ok { acc with facs := addFac acc.facs 1 f }
    else if p.2 = chars ("B88") then Except.ok { acc with facs := addFac acc.facs 106 f }
    else if p.2 = chars ("LYP") then Except.ok { acc with facs := addFac acc.facs 131 f }
    else if p.2 = chars ("VWN") then Except.ok { acc with facs := addFac acc.facs 7 f }
    else Except.error (String.mk tok)

/-- Process a `+`-separated token list left to right. -/
def applyTokens (acc : ParsedXC) (toks : List (List Char)) : Except String ParsedXC :=
  match toks with
  | [] => Except.ok acc
  | t :: rest =>
    match applyToken acc t with
    | Except.error e => Except.error e
    | Except.ok acc2 => applyTokens acc2 rest

/-- Tokens of one side of the comma: split on `+`, dropping empty pieces
(an empty side, as in `,LYP`, contributes nothing). -/
def tokensOf (part : List Char) : List (List Char) :=
  (splitOnCh '+' part).filter (fun t => !t.isEmpty)

/-- Modelled from the spec: `parse_xc(description)` returns the pair
`(hybrid_coefficient, functional_terms)` or an InvalidInput error naming
the offending token.  Exchange-side tokens come before the single comma,
correlation-side tokens after; with no comma the whole string is one
combined specification. -/
def parse_xc (description : String) : Except String (ℚ × List (Nat × ℚ)) :=
  let up := description.data.map upChar
  match splitOnCh ',' up with
  | [xonly] =>
    match applyTokens { hyb := 0, facs := [] } (tokensOf xonly) with
    | Except.error e => Except.error e
    | Except.ok a => Except.ok (a.hyb, a.facs)
  | [xpart, cpart] =>
    match applyTokens { hyb := 0, facs := [] } (tokensOf xpart) with
    | Except.error e => Except.error e
    | Except.ok a =>
      match applyTokens a (tokensOf cpart) with
      | Except.error e => Except.error e
      | Except.ok a2 => Except.ok (a2.hyb, a2.facs)
  | _ => Except.error description

/-! ## Periodic unrestricted Kohn-Sham solver (src/pyscf/pbc/dft/kuks.py)

`get_veff` is embedded as a pure function.  Collaborators that are not in
the repository slice — `grids.build`, `_numint.nr_uks`,
`_numint.hybrid_coeff`, `get_j`/`get_jk`, `_numint.large_rho_indices`,
`grids.make_mask` — are oracle functions supplied in an `Env` record; the
body below mirrors kuks.py lines 23-81 statement by statement (the
`logger.timer`/`logger.debug` calls only produce diagnostics and are not
part of the state).  A numpy density-matrix array is modelled through the
observations `get_veff` makes of it: `ndim`, `shape[0]`, the k-point and
orbital extents used by the trace contractions, and its entries. -/

/-- A spatial grid point. -/
abbrev Coord := ℚ × ℚ × ℚ

/-- A k-point. -/
abbrev Kpt := ℚ × ℚ × ℚ

/-- A spin-, k-point- and orbital-pair-indexed operator array
(`v s K i j`), the shape of `vxc`, `vj[spin]`+`vk` stacks. -/
abbrev VFun := Nat → Nat → Nat → Nat → Cplx

/-- One row of the `non0tab` sparsity mask. -/
abbrev Mask := List Bool

/-- The solver's grid object: coordinates (`None` before the first build),
weights and the sparsity mask. -/
structure Grids where
  coords : Option (List Coord)
  weights : List ℚ
  non0tab : List Mask

/-- A numpy density-matrix array as observed by `get_veff`: number of
axes, length of the first axis, the k-point and orbital extents, and the
entries `dm[s][K][i,j]`. -/
structure DMat where
  ndim : Nat
  shape0 : Nat
  nk : Nat
  nao : Nat
  val : Nat → Nat → Nat → Nat → Cplx

/-- Oracles for the collaborators `get_veff` delegates to; each takes the
arguments the source passes it (the cell argument, fixed per call, is
folded into the record). -/
structure Env where
  buildCoords : List Coord
  buildWeights : List ℚ
  buildNon0tab : List Mask
  nrUks : Grids → String → DMat → List Kpt → Option (List Kpt) → (ℚ × ℚ) × ℚ × VFun
  hybridCoeff : String → ℤ → ℚ
  getJ : DMat → ℤ → List Kpt → Option (List Kpt) → VFun
  getJK : DMat → ℤ → List Kpt → Option (List Kpt) → VFun × VFun
  largeRhoIdx : DMat → Grids → ℚ → List Kpt → List Bool
  maskRow : Coord → Mask

/-- The solver fields `get_veff` reads: the functional specification, the
grid object, the small-density cutoff, and the cell's spin and nominal
per-spin electron counts. -/
structure KS where
  xc : String
  grids : Grids
  small_rho_cutoff : ℚ
  cellSpin : ℤ
  cellNelec : ℚ × ℚ

/-- Modelled from the spec: `grids.make_mask(cell, coords)` (gen_grid, not
in the repository slice) recomputes the sparsity mask for the given
coordinates — one mask row per retained point. -/
def make_mask (env : Env) (coords : List Coord) : List Mask :=
  coords.map env.maskRow

/-- `grids.build(with_non0tab=True)`: populates coordinates, weights and
mask from the grid-generation collaborator. -/
def buildGrids (env : Env) : Grids :=
  { coords := some env.buildCoords, weights := env.buildWeights, non0tab := env.buildNon0tab }

/-- kuks.py lines 32-37: if the grid has no coordinates yet, build it and
keep the solver's small-density cutoff active for this call; otherwise
leave the grid as is and set the cutoff to 0 for this call.  Returns
(cutoff for this call, grid used for this call). -/
def stepGrid (env : Env) (ks : KS) : ℚ × Grids :=
  match ks.grids.coords with
  | none => (ks.small_rho_cutoff, buildGrids env)
  | some _ => (0, ks.grids)

/-- kuks.py lines 39-45: with `hermi == 2` the density vanishes and
numerical integration is skipped (`n = (0,0)`, `exc = 0`, `vxc = 0`);
otherwise the numerical-integration delegate is invoked.  The Boolean
records whether the delegate was invoked. -/
def xcStep (env : Env) (grids1 : Grids) (xc : String) (dm : DMat) (hermi : ℤ)
    (kpts : List Kpt) (kpts_band : Option (List Kpt)) :
    ((ℚ × ℚ) × ℚ × VFun) × Bool :=
  if hermi = 2 then (((0, 0), 0, fun _ _ _ _ => ⟨0, 0⟩), false)
  else (env.nrUks grids1 xc dm kpts kpts_band, true)

/-- numpy boolean indexing `a[idx]`: keep the elements whose flag is
true. -/
def filterIdx {γ : Type} (l : List γ) (idx : List Bool) : List γ :=
  match l, idx with
  | [], _ => []
  | _, [] => []
  | x :: xs, b :: bs => if b then x :: filterIdx xs bs else filterIdx xs bs

/-- Outcome of the hybrid-coefficient branch (kuks.py lines 51-61): the
Coulomb operator actually used, the updated potential, the updated XC
energy, and whether an exact-exchange operator was computed. -/
structure HybRes where
  vjUsed : VFun
  vxc1 : VFun
  exc1 : ℚ
  computedK : Bool

/-- Everything observable about one `get_veff` call: the returned tagged
array (`result` with side-channel attributes `ecoul`, `exc`, cleared
`vj`/`vk` caches) plus the internal quantities the claims speak about and
the grid state after the call. -/
structure VeffTrace where
  result : VFun
  ecoul : Option ℚ
  exc : ℚ
  vjTag : Option VFun
  vkTag : Option VFun
  n : ℚ × ℚ
  groundState : Bool
  invokedNumint : Bool
  computedK : Bool
  pruned : Bool
  gridsAfter : Grids

/-- kuks.py lines 23-81, `get_veff(ks, cell, dm, dm_last, vhf_last, hermi,
kpts, kpts_band)`.  `dm_last` and `vhf_last` are accepted (any type, as in
Python) and never consulted, exactly as in the source. -/
def get_veff (env : Env) (ks : KS) {α β : Type} (dm : DMat) (dm_last : α)
    (vhf_last : β) (hermi : ℤ) (kpts : List Kpt)
    (kpts_band : Option (List Kpt)) : VeffTrace :=
  let sg := stepGrid env ks
  let small_rho_cutoff := sg.1
  let grids1 := sg.2
  let xs := xcStep env grids1 ks.xc dm hermi kpts kpts_band
  let n := xs.1.1
  let exc0 := xs.1.2.1
  let vxc0 := xs.1.2.2
  let ground_state := (dm.ndim == 4) && (dm.shape0 == 2) && kpts_band.isNone
  let weight : ℚ := 1 / (kpts.length : ℚ)
  let hyb := env.hybridCoeff ks.xc ks.cellSpin
  let hs : HybRes :=
    if |hyb| < 1 / 10 ^ 10 then
      let vj := env.getJ dm hermi kpts kpts_band
      { vjUsed := vj
        vxc1 := fun s K i j => vxc0 s K i j + vj 0 K i j + vj 1 K i j
        exc1 := exc0
        computedK := false }
    else
      let jk := env.getJK dm hermi kpts kpts_band
      let vj := jk.1
      let vk := jk.2
      { vjUsed := vj
        vxc1 := fun s K i j =>
          vxc0 s K i j + vj 0 K i j + vj 1 K i j - qsmul hyb (vk s K i j)
        exc1 :=
          if ground_state then
            exc0 - (tr3 dm.nk dm.nao (dm.val 0) (vk 0)
                    + tr3 dm.nk dm.nao (dm.val 1) (vk 1)).re * hyb * (1 / 2) * weight
          else exc0
        computedK := true }
  let ecoul : Option ℚ :=
    if ground_state then
      some ((tr3 dm.nk dm.nao (fun K i j => dm.val 0 K i j + dm.val 1 K i j)
              (fun K i j => hs.vjUsed 0 K i j + hs.vjUsed 1 K i j)).re * (1 / 2) * weight)
    else none
  let pruneCond :=
    decide (small_rho_cutoff > 1 / 10 ^ 20) && ground_state
      && decide (|n.1 - ks.cellNelec.1| < 1 / 100 * n.1)
      && decide (|n.2 - ks.cellNelec.2| < 1 / 100 * n.2)
  let gridsAfter :=
    if pruneCond then
      let idx := env.largeRhoIdx dm grids1 small_rho_cutoff kpts
      let newCoords := filterIdx (grids1.coords.getD []) idx
      { coords := some newCoords
        weights := filterIdx grids1.weights idx
        non0tab := make_mask env newCoords }
    else grids1
  { result := hs.vxc1, ecoul := ecoul, exc := hs.exc1, vjTag := none, vkTag := none,
    n := n, groundState := ground_state, invokedNumint := xs.2, computedK := hs.computedK,
    pruned := pruneCond, gridsAfter := gridsAfter }

/-! ## The `energy_elec` → `get_veff` call (kuks.py lines 105-116)

kuks.py line 109 reads `vhf = self.get_veff(self, self.cell, dm_kpts)`.
Because `get_veff` is a class attribute, `self.get_veff` is a bound
method: the interpreter prepends `self` to the explicit positional
arguments, so the function `get_veff(ks, cell=None, dm=None, dm_last=0,
vhf_last=0, hermi=1, kpts=None, kpts_band=None)` receives the positional
list `(self, self, self.cell, dm_kpts)`.  The definitions below embed
exactly this positional binding. -/

/-- The Python values reaching the call site, tagged by provenance. -/
inductive PyArgVal where
  | selfSolver
  | selfCell
  | dmKptsArr
  | intLit (v : ℤ)
  | noneLit
deriving DecidableEq

/-- The parameters of `get_veff` in declaration order with their default
values (`ks` has no default; it is always bound positionally and is given
`noneLit` here only to make the record total). -/
def get_veff_params : List (String × PyArgVal) :=
  [("ks", PyArgVal.noneLit), ("cell", PyArgVal.noneLit), ("dm", PyArgVal.noneLit),
   ("dm_last", PyArgVal.intLit 0), ("vhf_last", PyArgVal.intLit 0),
   ("hermi", PyArgVal.intLit 1), ("kpts", PyArgVal.noneLit),
   ("kpts_band", PyArgVal.noneLit)]

/-- Python positional binding: the i-th positional argument binds the i-th
parameter; parameters left over take their defaults. -/
def bindPositional (params : List (String × PyArgVal)) (args : List PyArgVal) :
    List (String × PyArgVal) :=
  match params, args with
  | [], _ => []
  | p :: ps, [] => p :: bindPositional ps []
  | (nm, _) :: ps, a :: rest => (nm, a) :: bindPositional ps rest

/-- The positional argument list of `self.get_veff(self, self.cell,
dm_kpts)`: the bound method prepends `self`. -/
def energy_elec_veff_args : List PyArgVal :=
  [PyArgVal.selfSolver, PyArgVal.selfSolver, PyArgVal.selfCell, PyArgVal.dmKptsArr]

/-- The parameter/argument binding the recompute call in `energy_elec`
actually produces. -/
def energy_elec_veff_binding : List (String × PyArgVal) :=
  bindPositional get_veff_params energy_elec_veff_args

/-- The `ecoul`/`exc` tags of a previously computed effective potential as
consulted by `energy_elec`. -/
structure VhfTag where
  ecoul : Option ℚ
  exc : ℚ

/-- kuks.py line 108: the recompute branch is taken when `vhf` is absent
or its `ecoul` attribute is absent. -/
def energy_elec_recomputes_vhf (vhf : Option VhfTag) : Bool :=
  match vhf with
  | none => true
  | some v => v.ecoul.isNone

/-! ## Helper lemma and concrete sample instances -/

/-- numpy boolean indexing keeps the same number of elements from two
equally long arrays. -/
theorem filterIdx_length_congr {γ δ : Type} (idx : List Bool) :
    ∀ (l1 : List γ) (l2 : List δ), l1.length = l2.length →
      (filterIdx l1 idx).length = (filterIdx l2 idx).length := by
  induction idx with
  | nil =>
    intro l1 l2 h
    cases l1 <;> cases l2 <;> simp [filterIdx]
  | cons b bs ih =>
    intro l1 l2 h
    cases l1 with
    | nil => cases l2 with
      | nil => simp [filterIdx]
      | cons y ys => simp at h
    | cons x xs => cases l2 with
      | nil => simp at h
      | cons y ys =>
        have h2 : xs.length = ys.length := by simpa using h
        cases b <;> simp [filterIdx, ih xs ys h2]

/-- The origin k-point. -/
def kpt0 : Kpt := (0, 0, 0)

/-- A sample grid point. -/
def coord0 : Coord := (0, 0, 0)

/-- A ground-state-shaped density matrix (`shape = (2, 1, 1, 1)`) with all
entries 1. -/
def dmG : DMat :=
  { ndim := 4, shape0 := 2, nk := 1, nao := 1, val := fun _ _ _ _ => ⟨1, 0⟩ }

/-- Environment for the hybrid `hermi == 2` evaluation: hybrid coefficient
1, exact-exchange operator with all entries 1, everything else zero. -/
def envC4 : Env :=
  { buildCoords := [coord0], buildWeights := [1], buildNon0tab := [[true]],
    nrUks := fun _ _ _ _ _ => ((0, 0), 0, fun _ _ _ _ => ⟨0, 0⟩),
    hybridCoeff := fun _ _ => 1,
    getJ := fun _ _ _ _ => fun _ _ _ _ => ⟨0, 0⟩,
    getJK := fun _ _ _ _ => (fun _ _ _ _ => ⟨0, 0⟩, fun _ _ _ _ => ⟨1, 0⟩),
    largeRhoIdx := fun _ _ _ _ => [true],
    maskRow := fun _ => [true] }

/-- A solver whose grid is already populated. -/
def ksBuilt : KS :=
  { xc := "B3LYP", grids := { coords := some [coord0], weights := [1], non0tab := [[true]] },
    small_rho_cutoff := 1 / 10 ^ 7, cellSpin := 0, cellNelec := (1, 1) }

/-- Environment for the grid-pruning evaluation: a pure functional, two
grid points, and integrated electron counts `n = (9999.5, 9999.5)`. -/
def envC6 : Env :=
  { buildCoords := [coord0, (1, 0, 0)], buildWeights := [1, 2],
    buildNon0tab := [[true], [true]],
    nrUks := fun _ _ _ _ _ => ((19999 / 2, 19999 / 2), 0, fun _ _ _ _ => ⟨0, 0⟩),
    hybridCoeff := fun _ _ => 0,
    getJ := fun _ _ _ _ => fun _ _ _ _ => ⟨0, 0⟩,
    getJK := fun _ _ _ _ => (fun _ _ _ _ => ⟨0, 0⟩, fun _ _ _ _ => ⟨0, 0⟩),
    largeRhoIdx := fun _ _ _ _ => [true, false],
    maskRow := fun _ => [true] }

/-- A solver whose grid is not yet built, with nominal electron counts
`cell.nelec = (9900, 9900)` and the default cutoff `1e-7`. -/
def ksC6 : KS :=
  { xc := "LDA,VWN", grids := { coords := none, weights := [], non0tab := [] },
    small_rho_cutoff := 1 / 10 ^ 7, cellSpin := 0, cellNelec := (9900, 9900) }

/-! ## Claims -/

unseal Rat.add Rat.mul Rat.inv Rat.sub Rat.ofScientific in
/-- Claim C1: for the input string `.5*HF+.5*B3LYP,.5*VWN`, `parse_xc`
returns hybrid coefficient 0.7 (exactly, hence within 1e-12) and the
functional-term sequence with identifiers `[1, 106, 131, 7]` and weights
`[0.08, 0.72, 0.81, 0.69]` in that positional correspondence. -/
theorem C1_parse_xc_literal :
    (parse_xc (".5*HF+.5*B3LYP,.5*VWN")).toOption
      = some ((7 : ℚ) / 10,
          [(1, (8 : ℚ) / 100), (106, (72 : ℚ) / 100),
           (131, (81 : ℚ) / 100), (7, (69 : ℚ) / 100)]) := by
  decide

/-- Claim C2 (code bug): the recompute branch of `energy_elec` executes
`self.get_veff(self, self.cell, dm_kpts)` (kuks.py line 109); through the
bound method the parameter `cell` receives the solver itself, `dm`
receives the solver's cell object, and the supplied density matrices land
in the unused `dm_last` — so `get_veff` is NOT called on the solver's cell
and the supplied density matrices as the claim states. -/
theorem C2_energy_elec_veff_binding_bug :
    energy_elec_recomputes_vhf none = true
    ∧ energy_elec_veff_binding.lookup ("cell") = some PyArgVal.selfSolver
    ∧ energy_elec_veff_binding.lookup ("dm") = some PyArgVal.selfCell
    ∧ energy_elec_veff_binding.lookup ("dm_last") = some PyArgVal.dmKptsArr
    ∧ energy_elec_veff_binding.lookup ("dm") ≠ some PyArgVal.dmKptsArr := by
  decide

/-- Claim C8: `error` always writes a line prefixed `ERROR: ` to standard
error regardless of verbosity, and the configured sink receives the
message — with a leading blank line and the `ERROR: ` prefix — exactly
when the verbosity is at least ERROR (1). -/
theorem C8_error_streams (verbose : ℤ) (msg : String) :
    (error verbose msg).2 = ["ERROR: " ++ msg ++ "\n"]
    ∧ (error verbose msg).1
        = (if verbose ≥ ERROR then ["\nERROR: " ++ msg ++ "\n", "\n"] else []) := by
  constructor
  · rfl
  · by_cases h : verbose ≥ ERROR <;> simp [error, flush, h]

/-- Claim C9: `dm_last` and `vhf_last` have no influence on `get_veff`:
two calls whose inputs differ only in those two arguments produce the
identical trace — the same returned potential, the same attached `ecoul`
and `exc`, and the same grid state. -/
theorem C9_dm_last_vhf_last_no_influence (env : Env) (ks : KS) {α β : Type}
    (dm : DMat) (a a2 : α) (b b2 : β) (hermi : ℤ) (kpts : List Kpt)
    (kpts_band : Option (List Kpt)) :
    get_veff env ks dm a b hermi kpts kpts_band
      = get_veff env ks dm a2 b2 hermi kpts kpts_band := rfl

/-- Claim C10: calling `timer` with a supplied starting wall time equal to
0 behaves exactly as if no wall time were supplied, because `if wall0:`
tests truthiness: the call equals the `wall0 = None` call, returns only a
single updated CPU timestamp, leaves the recorded wall timestamp
unchanged, and emits the CPU-only line form exactly when verbosity is at
or above TIMER_LEVEL. -/
theorem C10_timer_zero_wall (lg : LogRec) (msg : String) (cpu0 : Option ℚ)
    (clockNow timeNow : ℚ) :
    timer lg msg cpu0 (some 0) clockNow timeNow
        = timer lg msg cpu0 none clockNow timeNow
    ∧ (timer lg msg cpu0 (some 0) clockNow timeNow).1.w0 = lg.w0
    ∧ (timer lg msg cpu0 (some 0) clockNow timeNow).2.1 = Sum.inl clockNow
    ∧ (timer lg msg cpu0 (some 0) clockNow timeNow).2.2
        = (if lg.verbose ≥ TIMER_LEVEL then
            [TimerLine.cpuOnly msg (clockNow - cpu0.getD lg.t0)]
          else []) := by
  exact ⟨rfl, rfl, rfl, rfl⟩

/-- Claim C5: `ground_state` holds exactly when the density matrix has
four axes with first axis of length 2 and no alternate-band k-point list
was supplied, and the `ecoul` attribute of the returned potential is
present exactly when `ground_state` holds. -/
theorem C5_ground_state_ecoul (env : Env) (ks : KS) {α β : Type} (dm : DMat)
    (dm_last : α) (vhf_last : β) (hermi : ℤ) (kpts : List Kpt)
    (kpts_band : Option (List Kpt)) :
    (get_veff env ks dm dm_last vhf_last hermi kpts kpts_band).groundState
        = ((dm.ndim == 4) && (dm.shape0 == 2) && kpts_band.isNone)
    ∧ (get_veff env ks dm dm_last vhf_last hermi kpts kpts_band).ecoul.isSome
        = (get_veff env ks dm dm_last vhf_last hermi kpts kpts_band).groundState := by
  refine ⟨rfl, ?_⟩
  by_cases h : ((dm.ndim == 4) && (dm.shape0 == 2) && kpts_band.isNone) = true <;>
    simp [get_veff, h]

/-- Claim C3: when the hybrid coefficient's magnitude is below `1e-10`,
`get_veff` computes no exact-exchange operator and adds both spin
channels' Coulomb contributions to `vxc`; when it is at or above `1e-10`,
both Coulomb and exact-exchange operators are computed, `vxc` receives
`vj[0] + vj[1] - vk*hyb`, and on a ground-state evaluation `exc` is
reduced by `0.5 * hyb * weight * Re[Σ_s Σ_K tr(dm[s][K]·vk[s][K])]`
(the `einsum('Kij,Kji', ...)` contraction of the source). -/
theorem C3_hybrid_threshold (env : Env) (ks : KS) {α β : Type} (dm : DMat)
    (dm_last : α) (vhf_last : β) (hermi : ℤ) (kpts : List Kpt)
    (kpts_band : Option (List Kpt)) :
    (get_veff env ks dm dm_last vhf_last hermi kpts kpts_band).computedK
        = (if |env.hybridCoeff ks.xc ks.cellSpin| < 1 / 10 ^ 10 then false else true)
    ∧ (get_veff env ks dm dm_last vhf_last hermi kpts kpts_band).result
        = (if |env.hybridCoeff ks.xc ks.cellSpin| < 1 / 10 ^ 10 then
            fun s K i j =>
              (xcStep env (stepGrid env ks).2 ks.xc dm hermi kpts kpts_band).1.2.2 s K i j
                + env.getJ dm hermi kpts kpts_band 0 K i j
                + env.getJ dm hermi kpts kpts_band 1 K i j
          else
            fun s K i j =>
              (xcStep env (stepGrid env ks).2 ks.xc dm hermi kpts kpts_band).1.2.2 s K i j
                + (env.getJK dm hermi kpts kpts_band).1 0 K i j
                + (env.getJK dm hermi kpts kpts_band).1 1 K i j
                - qsmul (env.hybridCoeff ks.xc ks.cellSpin)
                    ((env.getJK dm hermi kpts kpts_band).2 s K i j))
    ∧ (get_veff env ks dm dm_last vhf_last hermi kpts kpts_band).exc
        = (if |env.hybridCoeff ks.xc ks.cellSpin| < 1 / 10 ^ 10 then
            (xcStep env (stepGrid env ks).2 ks.xc dm hermi kpts kpts_band).1.2.1
          else if (dm.ndim == 4) && (dm.shape0 == 2) && kpts_band.isNone then
            (xcStep env (stepGrid env ks).2 ks.xc dm hermi kpts kpts_band).1.2.1
              - (tr3 dm.nk dm.nao (dm.val 0) ((env.getJK dm hermi kpts kpts_band).2 0)
                 + tr3 dm.nk dm.nao (dm.val 1) ((env.getJK dm hermi kpts kpts_band).2 1)).re
                * env.hybridCoeff ks.xc ks.cellSpin * (1 / 2) * (1 / (kpts.length : ℚ))
          else (xcStep env (stepGrid env ks).2 ks.xc dm hermi kpts kpts_band).1.2.1) := by
  by_cases h : |env.hybridCoeff ks.xc ks.cellSpin| < ((10 : ℚ) ^ 10)⁻¹ <;>
    simp [get_veff, h]

unseal Rat.add Rat.mul Rat.inv Rat.sub Rat.ofScientific in
/-- Claim C4 counterexample: with `hermi == 2`, a hybrid functional
(`hyb = 1`) and a ground-state-shaped density matrix, the returned `exc`
attribute is not 0 — the exact-exchange correction of the hybrid branch
is still subtracted after the short-circuit — so the claim that a
`hermi == 2` call returns `exc == 0` regardless of the density matrix is
false at this input. -/
theorem C4_hermi2_exc_counterexample :
    (get_veff envC4 ksBuilt dmG (0 : ℚ) (0 : ℚ) 2 [kpt0] none).exc = -1
    ∧ ((-1 : ℚ) ≠ 0) := by
  constructor
  · decide
  · decide

/-- Claim C4 (amended): with `hermi == 2` the numerical-integration
delegate is not invoked, the integration step yields electron counts
`(0, 0)`, XC energy 0 and a zero functional contribution to the
potential; the returned `exc` is 0 unless the functional is hybrid
(`|hyb| >= 1e-10`) and the evaluation is ground-state, in which case the
returned `exc` is minus the exact-exchange correction. -/
theorem C4_hermi2_shortcircuit (env : Env) (ks : KS) {α β : Type} (dm : DMat)
    (dm_last : α) (vhf_last : β) (kpts : List Kpt)
    (kpts_band : Option (List Kpt)) :
    (get_veff env ks dm dm_last vhf_last 2 kpts kpts_band).invokedNumint = false
    ∧ (get_veff env ks dm dm_last vhf_last 2 kpts kpts_band).n = (0, 0)
    ∧ xcStep env (stepGrid env ks).2 ks.xc dm 2 kpts kpts_band
        = (((0, 0), 0, fun _ _ _ _ => ⟨0, 0⟩), false)
    ∧ (get_veff env ks dm dm_last vhf_last 2 kpts kpts_band).exc
        = (if |env.hybridCoeff ks.xc ks.cellSpin| < 1 / 10 ^ 10 then 0
          else if (dm.ndim == 4) && (dm.shape0 == 2) && kpts_band.isNone then
            -((tr3 dm.nk dm.nao (dm.val 0) ((env.getJK dm 2 kpts kpts_band).2 0)
               + tr3 dm.nk dm.nao (dm.val 1) ((env.getJK dm 2 kpts kpts_band).2 1)).re
              * env.hybridCoeff ks.xc ks.cellSpin * (1 / 2) * (1 / (kpts.length : ℚ)))
          else 0) := by
  refine ⟨rfl, rfl, by simp [xcStep], ?_⟩
  by_cases h : |env.hybridCoeff ks.xc ks.cellSpin| < ((10 : ℚ) ^ 10)⁻¹ <;>
    simp [get_veff, h, xcStep]

unseal Rat.add Rat.mul Rat.inv Rat.sub Rat.ofScientific in
/-- Claim C6 counterexample: with nominal counts `(9900, 9900)` and
integrated counts `(9999.5, 9999.5)` the code prunes the grid
(`|n - nelec| = 99.5 < 0.01*n = 99.995`), although the integrated count is
NOT within 1% of the nominal count (`99.5 > 0.01*nelec = 99`): the code's
1% tolerance is measured relative to the integrated count `n`, not the
nominal count as the claim states. -/
theorem C6_prune_tolerance_counterexample :
    (get_veff envC6 ksC6 dmG (0 : ℚ) (0 : ℚ) 1 [kpt0] none).pruned = true
    ∧ ¬(|(get_veff envC6 ksC6 dmG (0 : ℚ) (0 : ℚ) 1 [kpt0] none).n.1
          - ksC6.cellNelec.1| ≤ 1 / 100 * ksC6.cellNelec.1) := by
  constructor
  · decide
  · decide

/-- Claim C6 (amended): pruning occurs exactly when the cutoff in force
for the call exceeds `1e-20`, the evaluation is ground-state, and each
spin channel's integrated electron count `n[s]` satisfies
`|n[s] - nelec[s]| < 0.01 * n[s]` (1% measured relative to the integrated
count, not the nominal count); after pruning the coordinate, weight and
mask arrays cover the same retained point subset (equal lengths); and a
call that finds the grid's coordinates already populated uses cutoff 0,
hence can never prune. -/
theorem C6_prune_conditions (env : Env) (ks : KS) {α β : Type} (dm : DMat)
    (dm_last : α) (vhf_last : β) (hermi : ℤ) (kpts : List Kpt)
    (kpts_band : Option (List Kpt))
    (hlen : env.buildWeights.length = env.buildCoords.length) :
    (get_veff env ks dm dm_last vhf_last hermi kpts kpts_band).pruned
        = (decide ((stepGrid env ks).1 > 1 / 10 ^ 20)
           && ((dm.ndim == 4) && (dm.shape0 == 2) && kpts_band.isNone)
           && decide
              (|(xcStep env (stepGrid env ks).2 ks.xc dm hermi kpts kpts_band).1.1.1
                  - ks.cellNelec.1|
                < 1 / 100
                  * (xcStep env (stepGrid env ks).2 ks.xc dm hermi kpts kpts_band).1.1.1)
           && decide
              (|(xcStep env (stepGrid env ks).2 ks.xc dm hermi kpts kpts_band).1.1.2
                  - ks.cellNelec.2|
                < 1 / 100
                  * (xcStep env (stepGrid env ks).2 ks.xc dm hermi kpts kpts_band).1.1.2))
    ∧ (stepGrid env ks).1
        = (if ks.grids.coords.isSome then 0 else ks.small_rho_cutoff)
    ∧ (ks.grids.coords.isSome
        && (get_veff env ks dm dm_last vhf_last hermi kpts kpts_band).pruned) = false
    ∧ ((get_veff env ks dm dm_last vhf_last hermi kpts kpts_band).pruned = true →
        ((get_veff env ks dm dm_last vhf_last hermi kpts kpts_band).gridsAfter.coords.getD
            []).length
          = (get_veff env ks dm dm_last vhf_last hermi kpts
              kpts_band).gridsAfter.weights.length
        ∧ (get_veff env ks dm dm_last vhf_last hermi kpts
              kpts_band).gridsAfter.non0tab.length
          = ((get_veff env ks dm dm_last vhf_last hermi kpts
              kpts_band).gridsAfter.coords.getD []).length) := by
  have hno : ¬((0 : ℚ) > 1 / 10 ^ 20) := by norm_num
  have hC : ∀ h2 : ks.grids.coords.isSome = true,
      (get_veff env ks dm dm_last vhf_last hermi kpts kpts_band).pruned = false := by
    intro h2
    obtain ⟨cs2, hc⟩ := Option.isSome_iff_exists.mp h2
    have h0 : (stepGrid env ks).1 = 0 := by simp [stepGrid, hc]
    have hpr : (get_veff env ks dm dm_last vhf_last hermi kpts kpts_band).pruned
        = (decide ((stepGrid env ks).1 > 1 / 10 ^ 20)
           && ((dm.ndim == 4) && (dm.shape0 == 2) && kpts_band.isNone)
           && decide
              (|(xcStep env (stepGrid env ks).2 ks.xc dm hermi kpts kpts_band).1.1.1
                  - ks.cellNelec.1|
                < 1 / 100
                  * (xcStep env (stepGrid env ks).2 ks.xc dm hermi kpts kpts_band).1.1.1)
           && decide
              (|(xcStep env (stepGrid env ks).2 ks.xc dm hermi kpts kpts_band).1.1.2
                  - ks.cellNelec.2|
                < 1 / 100
                  * (xcStep env (stepGrid env ks).2 ks.xc dm hermi kpts kpts_band).1.1.2)) :=
      rfl
    rw [hpr, h0]
    simp [hno]
  refine ⟨rfl, ?_, ?_, ?_⟩
  · cases h : ks.grids.coords <;> simp [stepGrid, h]
  · cases h2 : ks.grids.coords.isSome with
    | false => simp
    | true => simp [hC h2]
  · intro hp
    have hnone : ks.grids.coords = none := by
      cases hc : ks.grids.coords with
      | none => rfl
      | some cs2 =>
        have := hC (by simp [hc])
        rw [hp] at this
        exact absurd this (by simp)
    have hp2 := hp
    simp only [get_veff] at hp2 ⊢
    simp only [hp2, if_true]
    simp only [stepGrid, hnone, buildGrids]
    constructor
    · simp only [make_mask, Option.getD_some]
      exact filterIdx_length_congr _ env.buildCoords env.buildWeights hlen.symm
    · simp [make_mask]

unseal Rat.add Rat.mul Rat.inv Rat.sub Rat.ofScientific in
/-- Witness for C6: at the concrete pruning scenario the length hypothesis
holds and the pruned grid's coordinate and weight arrays have equal
length. -/
theorem C6_prune_conditions_witness :
    envC6.buildWeights.length = envC6.buildCoords.length
    ∧ ((get_veff envC6 ksC6 dmG (0 : ℚ) (0 : ℚ) 1 [kpt0]
          none).gridsAfter.coords.getD []).length
        = (get_veff envC6 ksC6 dmG (0 : ℚ) (0 : ℚ) 1 [kpt0]
            none).gridsAfter.weights.length := by
  refine ⟨rfl, ?_⟩
  exact ((C6_prune_conditions envC6 ksC6 dmG (0 : ℚ) (0 : ℚ) 1 [kpt0] none
    rfl).2.2.2 (by decide)).1
